import Mathlib

/-!
Verification of the OpenClaw provider-compat adapter and bootstrap helpers.

This file shallowly embeds the relevant parts of
`src/agents/provider-compat.ts` and `src/agents/bootstrap-files.ts`:

* a model of JavaScript JSON values, of `JSON.parse` and `JSON.stringify`
  (host builtins of the runtime, modelled by a standard recursive-descent
  JSON grammar; non-integral number formatting is approximated, no claim
  depends on it);
* the message-shape converter (`extractTextContent`, `extractToolCalls`,
  `convertToOpenAIMessages`);
* the response-recovery layer (`stripThinkingBlock`,
  `extractInlineToolCalls`, `unwrapToolCallArgs`, `buildAssistantMessage`);
* the transport event logic of `createProviderCompatStreamFn` (header
  construction and the try/catch/finally event emission, with the
  nondeterministic transport outcome made an explicit parameter);
* `resolveBootstrapExpiry` and `countUserMessagesInSession`.

`randomUUID()` is modelled by a deterministic fresh-id supply (a counter
seed); `Date.now()` by an explicit `now` parameter; the logger by returned
warning lists. JavaScript strings are modelled as `String` (sequences of
characters).
-/

namespace OpenClaw

/-! ## JavaScript string primitives -/

/-- JavaScript whitespace characters (the ASCII part of the `\s` class and
of `String.prototype.trim`). -/
def isJsWs (c : Char) : Bool :=
  c = ' ' || c = '\t' || c = '\n' || c = '\r' || c = '\x0b' || c = '\x0c'

/-- Model of `String.prototype.trim` on character lists. -/
def trimChars (cs : List Char) : List Char :=
  ((cs.dropWhile isJsWs).reverse.dropWhile isJsWs).reverse

/-- Model of `String.prototype.trim`. -/
def jsTrim (s : String) : String :=
  String.mk (trimChars s.data)

/-- Does the pattern occur in `cs` starting at index `i`? -/
def occursAtB (pat cs : List Char) (i : Nat) : Bool :=
  pat.isPrefixOf (cs.drop i)

/-- All indices at which the pattern occurs. -/
def occurrenceList (pat cs : List Char) : List Nat :=
  (List.range (cs.length + 1)).filter (occursAtB pat cs)

/-- Model of `String.prototype.includes` (for a non-empty pattern). -/
def containsSub (pat s : String) : Bool :=
  !(occurrenceList pat.data s.data).isEmpty

/-- Model of `String.prototype.indexOf`: index of the first occurrence. -/
def firstIndexOfSub (pat s : String) : Option Nat :=
  (occurrenceList pat.data s.data).head?

/-- Model of `String.prototype.lastIndexOf`: index of the last occurrence. -/
def lastIndexOfSub (pat s : String) : Option Nat :=
  (occurrenceList pat.data s.data).getLast?

/-- Model of `String.prototype.slice(n)` (drop the first `n` characters). -/
def jsDrop (s : String) (n : Nat) : String :=
  String.mk (s.data.drop n)

/-- Model of `String.prototype.slice(0, n)` (take the first `n` characters). -/
def jsTake (s : String) (n : Nat) : String :=
  String.mk (s.data.take n)

/-! ## JSON values -/

/-- JavaScript JSON values. Numbers are modelled exactly as rationals
(decimal literals are exact; the claims checked here never depend on
IEEE-754 rounding). Object fields are kept in insertion order, later
duplicate keys overwrite earlier ones as in `JSON.parse`. -/
inductive Json where
  | null : Json
  | bool (b : Bool) : Json
  | num (q : Rat) : Json
  | str (s : String) : Json
  | arr (elems : List Json) : Json
  | obj (fields : List (String × Json)) : Json
deriving Repr

namespace Json

/-- Property lookup on a JSON value: `v[k]` is `undefined` (here `none`)
unless `v` is an object with field `k`. -/
def lookup : Json → String → Option Json
  | obj fields, k => fields.lookup k
  | _, _ => none

/-- JavaScript truthiness of a JSON value. -/
def jsTruthy : Json → Bool
  | null => false
  | bool b => b
  | num q => q ≠ 0
  | str s => s ≠ ""
  | arr _ => true
  | obj _ => true

/-- Truthiness of a possibly-`undefined` value (property access result). -/
def jsTruthyOpt : Option Json → Bool
  | some v => v.jsTruthy
  | none => false

/-- Prepend a parsed object member in front of the already-merged later
members, with JavaScript duplicate-key semantics: the first assignment
fixes the position, a later assignment (already present in `fs`)
overwrites the value. -/
def objInsertFront (k : String) (v : Json) (fs : List (String × Json)) :
    List (String × Json) :=
  (k, ((fs.lookup k).getD v)) :: fs.filter (fun f => f.1 != k)

end Json

/-! ## JSON.parse -/

namespace JsonParse

/-- Skip JSON whitespace (space, tab, newline, carriage return). -/
def skipWs (cs : List Char) : List Char :=
  cs.dropWhile (fun c => c = ' ' || c = '\t' || c = '\n' || c = '\r')

/-- Is this a decimal digit? (Code points 48–57.) -/
def isDigitC (c : Char) : Bool :=
  48 ≤ c.toNat && c.toNat ≤ 57

/-- Digit value of a decimal digit character. -/
def digitVal (c : Char) : Nat :=
  c.toNat - 48

/-- Parse a maximal run of digits, returning the digits and the rest. -/
def takeDigits (cs : List Char) : List Char × List Char :=
  (cs.takeWhile isDigitC, cs.dropWhile isDigitC)

/-- Natural-number value of a digit run. -/
def digitsToNat (ds : List Char) : Nat :=
  ds.foldl (fun acc c => acc * 10 + digitVal c) 0

/-- The value of one hexadecimal digit of a `\u` escape (`0-9`, `a-f`,
`A-F` by code-point range). -/
def hexVal (c : Char) : Option Nat :=
  let n := c.toNat
  if 48 ≤ n && n ≤ 57 then some (n - 48)
  else if 97 ≤ n && n ≤ 102 then some (n - 87)
  else if 65 ≤ n && n ≤ 70 then some (n - 55)
  else none

/-- Parse the body of a JSON string literal (after the opening quote),
returning the decoded characters and the input after the closing quote. -/
def parseStrBody (fuel : Nat) (cs : List Char) : Option (List Char × List Char) :=
  match fuel, cs with
  | 0, _ => none
  | _, [] => none
  | fuel + 1, c :: rest =>
    if c = '"' then
      some ([], rest)
    else if c = '\\' then
      match rest with
      | [] => none
      | e :: rest2 =>
        let decoded : Option (Char × List Char) :=
          if e = '"' then some ('"', rest2)
          else if e = '\\' then some ('\\', rest2)
          else if e = '/' then some ('/', rest2)
          else if e = 'b' then some ('\x08', rest2)
          else if e = 'f' then some ('\x0c', rest2)
          else if e = 'n' then some ('\n', rest2)
          else if e = 'r' then some ('\r', rest2)
          else if e = 't' then some ('\t', rest2)
          else if e = 'u' then
            match rest2 with
            | h1 :: h2 :: h3 :: h4 :: rest3 =>
              match hexVal h1, hexVal h2, hexVal h3, hexVal h4 with
              | some a, some b, some c3, some d =>
                let n := ((a * 16 + b) * 16 + c3) * 16 + d
                some (Char.ofNat n, rest3)
              | _, _, _, _ => none
            | _ => none
          else none
        match decoded with
        | some (ch, rest3) =>
          match parseStrBody fuel rest3 with
          | some (tail, rest4) => some (ch :: tail, rest4)
          | none => none
        | none => none
    else if c.toNat < 0x20 then
      none
    else
      match parseStrBody fuel rest with
      | some (tail, rest2) => some (c :: tail, rest2)
      | none => none

/-- Parse a JSON number starting at `cs` (which must start with `-` or a
digit), returning its exact rational value and the rest of the input. -/
def parseNumber (cs : List Char) : Option (Rat × List Char) :=
  let neg : Bool := cs.head? = some '-'
  let cs1 : List Char := if neg then cs.tail else cs
  let (intDigits, cs2) := takeDigits cs1
  if intDigits.isEmpty then none
  else if intDigits.length > 1 && intDigits.head? = some '0' then none
  else
    let fracStep : Option (List Char × List Char) :=
      match cs2 with
      | '.' :: rest =>
        let (fd, rest2) := takeDigits rest
        if fd.isEmpty then none
        else some (fd, rest2)
      | _ => some ([], cs2)
    match fracStep with
    | none => none
    | some (fracDigits, cs3) =>
      let expStep : Option (Int × List Char) :=
        match cs3 with
        | e :: rest =>
          if e = 'e' || e = 'E' then
            let (esign, rest2) : Bool × List Char :=
              match rest with
              | '+' :: r => (false, r)
              | '-' :: r => (true, r)
              | _ => (false, rest)
            let (ed, rest3) := takeDigits rest2
            if ed.isEmpty then none
            else
              some (if esign then -(digitsToNat ed : Int) else (digitsToNat ed : Int), rest3)
          else some (0, cs3)
        | [] => some (0, cs3)
      match expStep with
      | none => none
      | some (expVal, cs4) =>
        let mantissa : Nat := digitsToNat (intDigits ++ fracDigits)
        let sgn : Int := if neg then -1 else 1
        let q : Rat :=
          if 0 ≤ expVal then
            mkRat (sgn * ((mantissa * Nat.pow 10 expVal.toNat : Nat) : Int))
              (Nat.pow 10 fracDigits.length)
          else
            mkRat (sgn * (mantissa : Int)) (Nat.pow 10 (fracDigits.length + expVal.natAbs))
        some (q, cs4)

/-- Work item of the recursive-descent parser: a whole value, the tail of
an array body, or the tail of an object body. Folding the three mutually
recursive parsers into one fuel-indexed function keeps the definition
structurally recursive (so it evaluates by kernel reduction). -/
inductive PJob where
  | val (cs : List Char) : PJob
  | elems (cs : List Char) : PJob
  | fields (cs : List Char) : PJob

/-- Result of one parser work item. -/
inductive POut where
  | val (v : Json) : POut
  | elems (vs : List Json) : POut
  | fields (fs : List (String × Json)) : POut

/-- The recursive-descent JSON parser. `val` parses one value at the head
of the input (no leading whitespace); `elems` a non-empty comma-separated
array body up to and including `]`; `fields` a non-empty object body up to
and including the closing brace (later duplicate keys overwrite earlier
ones). At most two nested calls happen without consuming a character, so
fuel `2 * (length + 1)` never runs out on the top-level wrapper. -/
def parseCore : Nat → PJob → Option (POut × List Char)
  | 0, _ => none
  | fuel + 1, PJob.val cs =>
    match cs with
    | [] => none
    | c :: rest =>
      if c = '"' then
        match parseStrBody (rest.length + 1) rest with
        | some (body, rest2) => some (POut.val (Json.str (String.mk body)), rest2)
        | none => none
      else if c = '[' then
        let rest2 := skipWs rest
        match rest2 with
        | ']' :: rest3 => some (POut.val (Json.arr []), rest3)
        | _ =>
          match parseCore fuel (PJob.elems rest2) with
          | some (POut.elems vs, rest3) => some (POut.val (Json.arr vs), rest3)
          | _ => none
      else if c = '{' then
        let rest2 := skipWs rest
        match rest2 with
        | '}' :: rest3 => some (POut.val (Json.obj []), rest3)
        | _ =>
          match parseCore fuel (PJob.fields rest2) with
          | some (POut.fields fs, rest3) => some (POut.val (Json.obj fs), rest3)
          | _ => none
      else if c = 't' then
        match cs with
        | 't' :: 'r' :: 'u' :: 'e' :: rest2 => some (POut.val (Json.bool true), rest2)
        | _ => none
      else if c = 'f' then
        match cs with
        | 'f' :: 'a' :: 'l' :: 's' :: 'e' :: rest2 => some (POut.val (Json.bool false), rest2)
        | _ => none
      else if c = 'n' then
        match cs with
        | 'n' :: 'u' :: 'l' :: 'l' :: rest2 => some (POut.val Json.null, rest2)
        | _ => none
      else
        match parseNumber cs with
        | some (q, rest2) => some (POut.val (Json.num q), rest2)
        | none => none
  | fuel + 1, PJob.elems cs =>
    match parseCore fuel (PJob.val cs) with
    | some (POut.val v, rest) =>
      match skipWs rest with
      | ',' :: rest2 =>
        match parseCore fuel (PJob.elems (skipWs rest2)) with
        | some (POut.elems vs, rest3) => some (POut.elems (v :: vs), rest3)
        | _ => none
      | ']' :: rest2 => some (POut.elems [v], rest2)
      | _ => none
    | _ => none
  | fuel + 1, PJob.fields cs =>
    match cs with
    | '"' :: rest =>
      match parseStrBody (rest.length + 1) rest with
      | none => none
      | some (keyChars, rest2) =>
        match skipWs rest2 with
        | ':' :: rest3 =>
          match parseCore fuel (PJob.val (skipWs rest3)) with
          | some (POut.val v, rest4) =>
            let key := String.mk keyChars
            match skipWs rest4 with
            | ',' :: rest5 =>
              match parseCore fuel (PJob.fields (skipWs rest5)) with
              | some (POut.fields fs, rest6) =>
                some (POut.fields (Json.objInsertFront key v fs), rest6)
              | _ => none
            | '}' :: rest5 => some (POut.fields [(key, v)], rest5)
            | _ => none
          | _ => none
        | _ => none
    | _ => none

end JsonParse

/-- Model of `JSON.parse`: parses one JSON value with optional surrounding
whitespace; any leftover input makes the parse fail (a thrown
`SyntaxError` in JavaScript, `none` here). -/
def Json.parse (s : String) : Option Json :=
  match JsonParse.parseCore (2 * (s.length + 1)) (JsonParse.PJob.val (JsonParse.skipWs s.data)) with
  | some (JsonParse.POut.val v, rest) =>
    if (JsonParse.skipWs rest).isEmpty then some v else none
  | _ => none

/-! ## JSON.stringify -/

namespace JsonStringify

/-- Escape one character for a JSON string literal, as `JSON.stringify`
does. -/
def escapeChar (c : Char) : List Char :=
  if c = '"' then ['\\', '"']
  else if c = '\\' then ['\\', '\\']
  else if c = '\x08' then ['\\', 'b']
  else if c = '\x0c' then ['\\', 'f']
  else if c = '\n' then ['\\', 'n']
  else if c = '\r' then ['\\', 'r']
  else if c = '\t' then ['\\', 't']
  else if c.toNat < 0x20 then
    let hx := fun (n : Nat) =>
      if n < 10 then Char.ofNat ('0'.toNat + n) else Char.ofNat ('a'.toNat + n - 10)
    ['\\', 'u', '0', '0', hx (c.toNat / 16), hx (c.toNat % 16)]
  else [c]

/-- Serialize a string literal with quotes and escapes. -/
def quoteStr (s : String) : String :=
  String.mk ('"' :: s.data.flatMap escapeChar ++ ['"'])

/-- Serialize a number. Integers print exactly as JavaScript prints them;
non-integral rationals with a terminating decimal expansion print in
decimal; other rationals cannot arise from `JSON.parse` input and get a
fallback rendering (JavaScript float formatting is approximated here; no
claim depends on it). -/
def numToString (q : Rat) : String :=
  if q.den = 1 then toString q.num
  else
    let rec findPow (k : Nat) : Nat → Option Nat
      | 0 => none
      | lim + 1 =>
        if (q * (10 : Rat) ^ k).den = 1 then some k else findPow (k + 1) lim
    match findPow 1 20 with
    | some k =>
      let scaled : Int := (q * (10 : Rat) ^ k).num
      let sign := if scaled < 0 then "-" else ""
      let digits := toString scaled.natAbs
      let padded :=
        if digits.length ≤ k then
          String.mk (List.replicate (k + 1 - digits.length) '0') ++ digits
        else digits
      let intPart := jsTake padded (padded.length - k)
      let fracPart := jsDrop padded (padded.length - k)
      sign ++ intPart ++ "." ++ fracPart
    | none => toString q.num ++ "e" ++ toString q.den

/-- Serialization work item: a value, an array body, or an object body. -/
inductive SJob where
  | val (v : Json) : SJob
  | elems (vs : List Json) : SJob
  | fields (fs : List (String × Json)) : SJob

/-- Fuel-indexed serializer (one fuel unit per node visited, so any fuel
at least the node count of the value is enough; the wrapper below passes
a bound far above every value in this development). -/
def stringifyCore : Nat → SJob → String
  | 0, _ => ""
  | _ + 1, SJob.val Json.null => "null"
  | _ + 1, SJob.val (Json.bool true) => "true"
  | _ + 1, SJob.val (Json.bool false) => "false"
  | _ + 1, SJob.val (Json.num q) => numToString q
  | _ + 1, SJob.val (Json.str s) => quoteStr s
  | fuel + 1, SJob.val (Json.arr vs) => "[" ++ stringifyCore fuel (SJob.elems vs) ++ "]"
  | fuel + 1, SJob.val (Json.obj fs) =>
    "\x7b" ++ stringifyCore fuel (SJob.fields fs) ++ "\x7d"
  | _ + 1, SJob.elems [] => ""
  | fuel + 1, SJob.elems [v] => stringifyCore fuel (SJob.val v)
  | fuel + 1, SJob.elems (v :: rest) =>
    stringifyCore fuel (SJob.val v) ++ "," ++ stringifyCore fuel (SJob.elems rest)
  | _ + 1, SJob.fields [] => ""
  | fuel + 1, SJob.fields [(k, v)] => quoteStr k ++ ":" ++ stringifyCore fuel (SJob.val v)
  | fuel + 1, SJob.fields ((k, v) :: rest) =>
    quoteStr k ++ ":" ++ stringifyCore fuel (SJob.val v) ++ "," ++
      stringifyCore fuel (SJob.fields rest)

end JsonStringify

/-- Model of `JSON.stringify` (no spacing argument). -/
def Json.stringify (v : Json) : String :=
  JsonStringify.stringifyCore 1000000 (JsonStringify.SJob.val v)

/-! ## provider-compat: wire types (`src/agents/provider-compat.ts`) -/

/-- `OpenAIToolCall.function`. -/
structure OpenAIFunctionCall where
  name : String
  arguments : String
deriving Repr, DecidableEq

/-- `OpenAIToolCall` (the `type` field is the constant string `"function"`
in the source and is kept as a field for fidelity). -/
structure OpenAIToolCall where
  id : String
  type : String := "function"
  function : OpenAIFunctionCall
deriving Repr, DecidableEq

/-- `OpenAIChatMessage`: the wire message. `content` is `string | null`
(`none` is the null value); `tool_calls` and `tool_call_id` are optional
fields (`none` means absent). -/
structure OpenAIChatMessage where
  role : String
  content : Option String
  tool_calls : Option (List OpenAIToolCall) := none
  tool_call_id : Option String := none
deriving Repr, DecidableEq

/-- `InputContentPart`: one part of an internal message's content list. -/
inductive InputContentPart where
  | text (text : String) : InputContentPart
  | image (data : String) : InputContentPart
  | toolCall (id : String) (name : String) (arguments : Json) : InputContentPart
  | tool_use (id : String) (name : String) (input : Json) : InputContentPart
deriving Repr

/-- The `content : unknown` field of an internal message: a plain string,
an array of typed parts, or anything else (`other`, e.g. `undefined`). -/
inductive ContentVal where
  | str (s : String) : ContentVal
  | parts (l : List InputContentPart) : ContentVal
  | other : ContentVal
deriving Repr

/-- An internal chat message as consumed by `convertToOpenAIMessages`. -/
structure InputMessage where
  role : String
  content : ContentVal
  toolCallId : Option String := none
deriving Repr

/-- `ProviderCompatConfig` (the two compat flags, absent modelled false). -/
structure ProviderCompatConfig where
  disableStreaming : Bool := false
  unwrapToolArgs : Bool := false
deriving Repr, DecidableEq

/-! ## provider-compat: message conversion -/

/-- `extractTextContent`: a string passes through verbatim; an array
keeps only text parts, concatenated in order with no separator; anything
else yields the empty string. -/
def extractTextContent : ContentVal → String
  | ContentVal.str s => s
  | ContentVal.parts l =>
    String.join (l.filterMap fun p =>
      match p with
      | InputContentPart.text t => some t
      | _ => none)
  | ContentVal.other => ""

/-- `extractToolCalls`: converts `toolCall`/`tool_use` parts to wire
tool-call records, JSON-serializing the argument payload. Non-arrays give
the empty list. -/
def extractToolCalls : ContentVal → List OpenAIToolCall
  | ContentVal.parts l =>
    l.filterMap fun p =>
      match p with
      | InputContentPart.toolCall id name args =>
        some { id := id, type := "function",
               function := { name := name, arguments := Json.stringify args } }
      | InputContentPart.tool_use id name input =>
        some { id := id, type := "function",
               function := { name := name, arguments := Json.stringify input } }
      | _ => none
  | _ => []

/-- The loop body of `convertToOpenAIMessages` for one input message
(`i` is the message's position, used to model the `randomUUID()` of the
`unknown_` fallback id — any injective fresh-id supply is an adequate
model of the random UUID). Roles other than user/assistant/tool/toolResult
produce no wire message. -/
def convertOneMessage (i : Nat) (msg : InputMessage) : Option OpenAIChatMessage :=
  if msg.role = "user" then
    some { role := "user", content := some (extractTextContent msg.content) }
  else if msg.role = "assistant" then
    let text := extractTextContent msg.content
    let toolCalls := extractToolCalls msg.content
    some { role := "assistant"
           content := if text ≠ "" then some text else none
           tool_calls := if toolCalls.length > 0 then some toolCalls else none }
  else if msg.role = "tool" || msg.role = "toolResult" then
    let text := extractTextContent msg.content
    let toolCallId :=
      match msg.toolCallId with
      | some s => s
      | none => "unknown_" ++ toString i
    some { role := "tool", content := some text, tool_call_id := some toolCallId }
  else
    none

/-- `convertToOpenAIMessages`: the system prompt (when present and
non-empty, per the `if (system)` truthiness test) becomes the first wire
message, followed by one wire message per convertible input turn. -/
def convertToOpenAIMessages (messages : List InputMessage) (system : Option String) :
    List OpenAIChatMessage :=
  let sys : List OpenAIChatMessage :=
    match system with
    | some s => if s ≠ "" then [{ role := "system", content := some s }] else []
    | none => []
  sys ++ messages.enum.filterMap fun (i, msg) => convertOneMessage i msg

/-! ## provider-compat: argument unwrapping -/

/-- The per-call body of `unwrapToolCallArgs`: JSON-parse the argument
string; if the result is itself a string, unwrap one encoding layer;
otherwise (including parse failure) leave the argument string unchanged. -/
def unwrapOneToolCall (tc : OpenAIToolCall) : OpenAIToolCall :=
  let args :=
    match Json.parse tc.function.arguments with
    | some (Json.str s) => s
    | _ => tc.function.arguments
  { tc with function := { tc.function with arguments := args } }

/-- `unwrapToolCallArgs`. -/
def unwrapToolCallArgs : Option (List OpenAIToolCall) → Option (List OpenAIToolCall)
  | none => none
  | some toolCalls => some (toolCalls.map unwrapOneToolCall)

/-! ## provider-compat: text post-processing -/

/-- `stripThinkingBlock`: keep only the (trimmed) remainder after the last
`</think>`; absent marker leaves the text untouched. -/
def stripThinkingBlock (text : String) : String :=
  if text = "" then text
  else
    match lastIndexOfSub "</think>" text with
    | none => text
    | some closeIdx => jsTrim (jsDrop text (closeIdx + "</think>".length))

/-- Result of `extractInlineToolCalls`; `warnings` models the `log.warn`
calls for unparseable blocks. -/
structure InlineExtractResult where
  remainingText : String
  toolCalls : List OpenAIToolCall
  warnings : List String
deriving Repr

/-- The argument string of an inline tool call: taken verbatim when the
`arguments` member is a string, else `JSON.stringify(arguments ?? {})`
(so a missing or null member serializes the empty object). -/
def inlineArgsString (parsed : Json) : String :=
  match parsed.lookup "arguments" with
  | some (Json.str s) => s
  | some Json.null => Json.stringify (Json.obj [])
  | some v => Json.stringify v
  | none => Json.stringify (Json.obj [])

/-- The name of an inline tool call. The source's own type requires a
string; a non-string truthy `name` (type-unsound but expressible in
JavaScript) is represented by its serialization. -/
def jsNameString : Json → String
  | Json.str s => s
  | v => Json.stringify v

/-- The loop of `extractInlineToolCalls`: repeatedly match the lazy
regex `<tool_call>\s*([\s\S]*?)\s*</tool_call>` left to right (each match
runs from an opener to the first closer after it, the captured group being
the enclosed span with surrounding whitespace absorbed by the `\s*`
anchors — i.e. trimmed; the source's extra `.trim()` is idempotent on it).
Fresh inline ids are modelled by the counter `seed`. -/
def extractLoop : Nat → Nat → String → String × List OpenAIToolCall × List String
  | 0, _, text => (text, [], [])
  | fuel + 1, seed, text =>
    match firstIndexOfSub "<tool_call>" text with
    | none => (text, [], [])
    | some i =>
      let pre := jsTake text i
      let afterOpen := jsDrop text (i + "<tool_call>".length)
      match firstIndexOfSub "</tool_call>" afterOpen with
      | none => (text, [], [])
      | some j =>
        let capture := jsTrim (jsTake afterOpen j)
        let rest := jsDrop afterOpen (j + "</tool_call>".length)
        let (restText, restCalls, restWarns) := extractLoop fuel (seed + 1) rest
        match Json.parse capture with
        | some parsed =>
          if Json.jsTruthyOpt (parsed.lookup "name") then
            (pre ++ restText,
             { id := "inline_call_" ++ toString seed
               type := "function"
               function := { name := jsNameString ((parsed.lookup "name").getD Json.null)
                             arguments := inlineArgsString parsed } } :: restCalls,
             restWarns)
          else
            (pre ++ restText, restCalls, restWarns)
        | none =>
          (pre ++ restText, restCalls,
           ("Failed to parse inline <tool_call>: " ++ jsTake capture 200) :: restWarns)

/-- `extractInlineToolCalls`. The fast path (no `<tool_call>` in the text)
returns the text untouched; otherwise the replaced text is trimmed. -/
def extractInlineToolCalls (seed : Nat) (text : String) : InlineExtractResult :=
  if text = "" || !containsSub "<tool_call>" text then
    { remainingText := text, toolCalls := [], warnings := [] }
  else
    let (rt, calls, warns) := extractLoop (text.length + 1) seed text
    { remainingText := jsTrim rt, toolCalls := calls, warnings := warns }

/-! ## provider-compat: response conversion -/

/-- Internal `StopReason` (subset used by the adapter). -/
inductive StopReason where
  | stop : StopReason
  | toolUse : StopReason
  | length : StopReason
  | error : StopReason
deriving Repr, DecidableEq

/-- The cost breakdown of `Usage` (always zero-filled by this adapter). -/
structure UsageCost where
  input : Rat := 0
  output : Rat := 0
  cacheRead : Rat := 0
  cacheWrite : Rat := 0
  total : Rat := 0
deriving Repr, DecidableEq

/-- Internal `Usage`. -/
structure Usage where
  input : Nat
  output : Nat
  cacheRead : Nat
  cacheWrite : Nat
  totalTokens : Nat
  cost : UsageCost
deriving Repr, DecidableEq

/-- One part of an internal assistant message's content
(`TextContent | ToolCall`); a tool call carries parsed structured
arguments. -/
inductive ContentPart where
  | text (text : String) : ContentPart
  | toolCall (id : String) (name : String) (arguments : Json) : ContentPart
deriving Repr

/-- Internal `AssistantMessage`. `errorMessage` is only set on the error
envelope of the transport. `Date.now()` is modelled by the explicit
`timestamp` argument threaded through construction. -/
structure AssistantMessage where
  role : String := "assistant"
  content : List ContentPart
  stopReason : StopReason
  errorMessage : Option String := none
  api : String
  provider : String
  model : String
  usage : Usage
  timestamp : Nat
deriving Repr

/-- The `modelInfo` argument of `buildAssistantMessage`. -/
structure ModelInfo where
  api : String
  provider : String
  id : String
deriving Repr, DecidableEq

/-- One choice's message in the provider response. -/
structure ChoiceMessage where
  role : String := "assistant"
  content : Option String := none
  tool_calls : Option (List OpenAIToolCall) := none
  reasoning_content : Option String := none
deriving Repr

/-- One choice of the provider response. -/
structure Choice where
  index : Nat := 0
  message : ChoiceMessage
  finish_reason : String := ""
deriving Repr

/-- The provider's reported token counts. -/
structure ResponseUsage where
  prompt_tokens : Nat
  completion_tokens : Nat
  total_tokens : Nat
deriving Repr, DecidableEq

/-- `OpenAIChatResponse`. -/
structure OpenAIChatResponse where
  id : String := ""
  choices : List Choice
  usage : Option ResponseUsage := none
deriving Repr

/-- The content part built for one final tool call (the loop body of
`buildAssistantMessage`): a falsy (empty) id is replaced by a fresh
`compat_call_` id (`randomUUID()` modelled by the call's position `i`),
and the argument string is JSON-parsed, defaulting to the empty object on
failure (which the source logs). -/
def finalToolCallPart (i : Nat) (tc : OpenAIToolCall) : ContentPart :=
  ContentPart.toolCall
    (if tc.id ≠ "" then tc.id else "compat_call_" ++ toString i)
    tc.function.name
    ((Json.parse tc.function.arguments).getD (Json.obj []))

/-- `buildAssistantMessage`. Raising (`throw`) is modelled by
`Except.error`; the `randomUUID()` fallbacks for tool-call ids by
position-indexed fresh ids; the `log.warn` on a final argument-parse
failure is a log-only effect (the call is still emitted with empty
structured arguments). -/
def buildAssistantMessage (response : OpenAIChatResponse) (modelInfo : ModelInfo)
    (compat : ProviderCompatConfig) (now : Nat) : Except String AssistantMessage :=
  match response.choices.head? with
  | none => Except.error "OpenAI-compat API returned no choices"
  | some choice =>
    let rawText := choice.message.content.getD ""
    let afterThinking := stripThinkingBlock rawText
    let er := extractInlineToolCalls 0 afterThinking
    let text := er.remainingText
    let textParts : List ContentPart := if text ≠ "" then [ContentPart.text text] else []
    let reasoningText := choice.message.reasoning_content.getD ""
    let er2 := extractInlineToolCalls er.toolCalls.length reasoningText
    let toolCalls0 :=
      choice.message.tool_calls.getD [] ++ er.toolCalls ++ er2.toolCalls
    let toolCalls :=
      if compat.unwrapToolArgs then (unwrapToolCallArgs (some toolCalls0)).getD []
      else toolCalls0
    let callParts := toolCalls.enum.map fun x => finalToolCallPart x.1 x.2
    let hasToolCalls := decide (toolCalls.length > 0)
    let stopReason := if hasToolCalls then StopReason.toolUse else StopReason.stop
    let usage : Usage :=
      { input := (response.usage.map ResponseUsage.prompt_tokens).getD 0
        output := (response.usage.map ResponseUsage.completion_tokens).getD 0
        cacheRead := 0
        cacheWrite := 0
        totalTokens := (response.usage.map ResponseUsage.total_tokens).getD 0
        cost := {} }
    Except.ok
      { role := "assistant"
        content := textParts ++ callParts
        stopReason := stopReason
        api := modelInfo.api
        provider := modelInfo.provider
        model := modelInfo.id
        usage := usage
        timestamp := now }

/-! ## provider-compat: transport (`createProviderCompatStreamFn`) -/

/-- JavaScript object-assignment on a string map: an existing key keeps
its position and takes the new value, a new key is appended. -/
def jsObjSet (fields : List (String × String)) (k v : String) : List (String × String) :=
  if fields.any (fun f => f.1 = k) then
    fields.map (fun f => if f.1 = k then (k, v) else f)
  else
    fields ++ [(k, v)]

/-- Lookup in a string map built by `jsObjSet`. -/
def jsObjGet (fields : List (String × String)) (k : String) : Option String :=
  (fields.find? (fun f => f.1 = k)).map Prod.snd

/-- JavaScript object-spread of an entry list into a base object: the
entries are assigned left to right. -/
def jsObjSpread (base : List (String × String)) (extra : List (String × String)) :
    List (String × String) :=
  extra.foldl (fun acc kv => jsObjSet acc kv.1 kv.2) base

/-- The header construction of `createProviderCompatStreamFn`:
`{"Content-Type": "application/json", ...options?.headers}` followed by
`headers.Authorization = Bearer key` when `options?.apiKey` is truthy
(so an empty-string key attaches nothing). -/
def buildHeaders (extraHeaders : List (String × String)) (apiKey : Option String) :
    List (String × String) :=
  let merged := jsObjSpread [("Content-Type", "application/json")] extraHeaders
  match apiKey with
  | some k => if k ≠ "" then jsObjSet merged "Authorization" ("Bearer " ++ k) else merged
  | none => merged

/-- The outcome of the transport steps preceding message construction:
a rejected `fetch`, a non-OK HTTP status (with the response body text, or
`none` when reading the body itself failed), a rejected `response.json()`,
or a parsed JSON body. This makes the environment's nondeterminism an
explicit parameter. -/
inductive FetchOutcome where
  | fetchFail (msg : String) : FetchOutcome
  | notOk (status : Nat) (bodyText : Option String) : FetchOutcome
  | jsonFail (msg : String) : FetchOutcome
  | okJson (response : OpenAIChatResponse) : FetchOutcome

/-- An event pushed to the assistant-message event stream. -/
inductive StreamEvent where
  | done (reason : StopReason) (message : AssistantMessage) : StreamEvent
  | errorEvt (reason : StopReason) (error : AssistantMessage) : StreamEvent

/-- The body of the `try` block of `run` (given the transport outcome):
every raised exception becomes `Except.error` with the error message the
source would produce. -/
def compatAttempt (outcome : FetchOutcome) (modelInfo : ModelInfo)
    (compat : ProviderCompatConfig) (now : Nat) : Except String StreamEvent :=
  match outcome with
  | FetchOutcome.fetchFail msg => Except.error msg
  | FetchOutcome.notOk status bodyText =>
    Except.error
      ("OpenAI-compat API error " ++ toString status ++ ": " ++ bodyText.getD "unknown error")
  | FetchOutcome.jsonFail msg => Except.error msg
  | FetchOutcome.okJson response =>
    match buildAssistantMessage response modelInfo compat now with
    | Except.error e => Except.error e
    | Except.ok assistantMessage =>
      let reason :=
        if assistantMessage.stopReason = StopReason.toolUse then StopReason.toolUse
        else StopReason.stop
      Except.ok (StreamEvent.done reason assistantMessage)

/-- Zero-filled usage of the error envelope. -/
def zeroUsage : Usage :=
  { input := 0, output := 0, cacheRead := 0, cacheWrite := 0, totalTokens := 0, cost := {} }

/-- The error envelope pushed by the `catch` branch. -/
def errorEnvelope (errorMessage : String) (modelInfo : ModelInfo) (now : Nat) :
    AssistantMessage :=
  { role := "assistant"
    content := []
    stopReason := StopReason.error
    errorMessage := some errorMessage
    api := modelInfo.api
    provider := modelInfo.provider
    model := modelInfo.id
    usage := zeroUsage
    timestamp := now }

/-- The whole `run` of `createProviderCompatStreamFn` as an event trace:
the pushed events in order, paired with whether `stream.end()` ran (the
`finally` block). -/
def runProviderCompat (outcome : FetchOutcome) (modelInfo : ModelInfo)
    (compat : ProviderCompatConfig) (now : Nat) : List StreamEvent × Bool :=
  match compatAttempt outcome modelInfo compat now with
  | Except.ok ev => ([ev], true)
  | Except.error e =>
    ([StreamEvent.errorEvt StopReason.error (errorEnvelope e modelInfo now)], true)

/-! ## bootstrap-files (`src/agents/bootstrap-files.ts`) -/

/-- A JavaScript number: finite (exact rational model), NaN, or an
infinity. -/
inductive JSNum where
  | finite (q : Rat) : JSNum
  | nan : JSNum
  | posInf : JSNum
  | negInf : JSNum
deriving Repr, DecidableEq

/-- An arbitrary JavaScript configuration value, as relevant to
`typeof raw === "number"` testing. -/
inductive JSValue where
  | num (n : JSNum) : JSValue
  | str (s : String) : JSValue
  | boolean (b : Bool) : JSValue
  | nullv : JSValue
  | objLike : JSValue
deriving Repr, DecidableEq

/-- `DEFAULT_BOOTSTRAP_EXPIRY`. -/
def DEFAULT_BOOTSTRAP_EXPIRY : Int := 10

/-- `resolveBootstrapExpiry`. The argument is the raw value of
`config?.agents?.defaults?.bootstrapExpiry` (`none` when any link of the
optional chain is missing). -/
def resolveBootstrapExpiry (bootstrapExpiry : Option JSValue) : Int :=
  match bootstrapExpiry with
  | some (JSValue.num (JSNum.finite q)) =>
    if 0 ≤ q then Rat.floor q else DEFAULT_BOOTSTRAP_EXPIRY
  | _ => DEFAULT_BOOTSTRAP_EXPIRY

/-- Is this parsed transcript record a user message
(`record.type === "message" && record.message?.role === "user"`)? -/
def isUserMessageRecord (record : Json) : Bool :=
  (match record.lookup "type" with
   | some (Json.str t) => t = "message"
   | _ => false)
  &&
  (match record.lookup "message" with
   | some m =>
     match m.lookup "role" with
     | some (Json.str r) => r = "user"
     | _ => false
   | none => false)

/-- The line loop of `countUserMessagesInSession`: blank lines and
JSON-parse failures are skipped; the loop returns as soon as the count
reaches the limit. -/
def countLoop : List String → Nat → Nat → Nat
  | [], count, _ => count
  | line :: rest, count, limit =>
    if jsTrim line = "" then countLoop rest count limit
    else
      match Json.parse line with
      | some record =>
        if isUserMessageRecord record then
          if limit ≤ count + 1 then count + 1
          else countLoop rest (count + 1) limit
        else countLoop rest count limit
      | none => countLoop rest count limit

/-- Model of `String.prototype.split("\n")` on character lists. -/
def splitOnNewlineChars : List Char → List (List Char)
  | [] => [[]]
  | c :: rest =>
    let r := splitOnNewlineChars rest
    if c = '\n' then [] :: r
    else
      match r with
      | [] => [[c]]
      | hd :: tl => (c :: hd) :: tl

/-- Model of `String.prototype.split("\n")`. -/
def jsSplitNewline (s : String) : List String :=
  (splitOnNewlineChars s.data).map String.mk

/-- `countUserMessagesInSession`. The transcript read is modelled by an
`Option String` (`none`: the `fs.readFile` promise rejected, caught by
the outer `try` which returns 0). -/
def countUserMessagesInSession (sessionFile : Option String) (limit : Nat) : Nat :=
  match sessionFile with
  | none => 0
  | some raw => countLoop (jsSplitNewline raw) 0 limit

/-- Does this transcript line count as a user message in the loop above
(non-blank, parses, and matches the user-message shape)? -/
def isCountedUserLine (line : String) : Bool :=
  jsTrim line ≠ "" &&
    (match Json.parse line with
     | some record => isUserMessageRecord record
     | none => false)

/-- Number of counted user-message lines, with no limit applied. -/
def userLineCount (lines : List String) : Nat :=
  (lines.filter isCountedUserLine).length

/-! ## Derived views used by the theorems -/

/-- The provider's structured tool calls of a choice. -/
def structuredToolCallsOf (c : Choice) : List OpenAIToolCall :=
  c.message.tool_calls.getD []

/-- The inline tool calls extracted from a choice's text content (after
thinking-block stripping), as in `buildAssistantMessage`. -/
def inlineTextToolCallsOf (c : Choice) : List OpenAIToolCall :=
  (extractInlineToolCalls 0 (stripThinkingBlock (c.message.content.getD ""))).toolCalls

/-- The inline tool calls extracted from a choice's `reasoning_content`,
as in `buildAssistantMessage`. -/
def inlineReasoningToolCallsOf (c : Choice) : List OpenAIToolCall :=
  (extractInlineToolCalls (inlineTextToolCallsOf c).length
    (c.message.reasoning_content.getD "")).toolCalls

/-- The names of the tool-call parts of an assistant message's content,
in order. -/
def assistantToolCallNames (msg : AssistantMessage) : List String :=
  msg.content.filterMap fun p =>
    match p with
    | ContentPart.toolCall _ name _ => some name
    | _ => none

/-! ## Theorems -/

/-- C8: a `toolCall` part (carrying `arguments`) and a `tool_use` part
(carrying `input`) with the same id, name and argument object produce an
identical wire tool-call record from `extractToolCalls` — in any position
of the content list — and that record carries the JSON-serialized
argument payload. -/
theorem extractToolCalls_naming_conventions :
    ∀ (l1 l2 : List InputContentPart) (id name : String) (args : Json),
      extractToolCalls (ContentVal.parts (l1 ++ InputContentPart.toolCall id name args :: l2)) =
        extractToolCalls
          (ContentVal.parts (l1 ++ InputContentPart.tool_use id name args :: l2)) ∧
      extractToolCalls (ContentVal.parts [InputContentPart.toolCall id name args]) =
        [{ id := id, type := "function",
           function := { name := name, arguments := Json.stringify args } }] := by
  intro l1 l2 id name args
  constructor
  · simp [extractToolCalls, List.filterMap_append, List.filterMap_cons]
  · rfl

/-- C10: `resolveBootstrapExpiry` floors a finite non-negative configured
number and returns the default 10 in every other case (missing config,
negative, NaN, infinities, non-number values); its result is never
negative. -/
theorem resolveBootstrapExpiry_spec :
    (∀ q : Rat, 0 ≤ q →
      resolveBootstrapExpiry (some (JSValue.num (JSNum.finite q))) = Rat.floor q) ∧
    (∀ q : Rat, q < 0 →
      resolveBootstrapExpiry (some (JSValue.num (JSNum.finite q))) = 10) ∧
    resolveBootstrapExpiry none = 10 ∧
    resolveBootstrapExpiry (some (JSValue.num JSNum.nan)) = 10 ∧
    resolveBootstrapExpiry (some (JSValue.num JSNum.posInf)) = 10 ∧
    resolveBootstrapExpiry (some (JSValue.num JSNum.negInf)) = 10 ∧
    (∀ s, resolveBootstrapExpiry (some (JSValue.str s)) = 10) ∧
    (∀ b, resolveBootstrapExpiry (some (JSValue.boolean b)) = 10) ∧
    resolveBootstrapExpiry (some JSValue.nullv) = 10 ∧
    resolveBootstrapExpiry (some JSValue.objLike) = 10 ∧
    (∀ raw, 0 ≤ resolveBootstrapExpiry raw) := by
  refine ⟨?_, ?_, rfl, rfl, rfl, rfl, fun _ => rfl, fun _ => rfl, rfl, rfl, ?_⟩
  · intro q hq
    simp [resolveBootstrapExpiry, hq]
  · intro q hq
    simp [resolveBootstrapExpiry, DEFAULT_BOOTSTRAP_EXPIRY, not_le.mpr hq]
  · intro raw
    match raw with
    | none => norm_num [resolveBootstrapExpiry, DEFAULT_BOOTSTRAP_EXPIRY]
    | some (JSValue.num (JSNum.finite q)) =>
      by_cases hq : 0 ≤ q
      · simpa [resolveBootstrapExpiry, hq] using Rat.le_floor.mpr (by exact_mod_cast hq)
      · norm_num [resolveBootstrapExpiry, DEFAULT_BOOTSTRAP_EXPIRY, hq]
    | some (JSValue.num JSNum.nan) => norm_num [resolveBootstrapExpiry, DEFAULT_BOOTSTRAP_EXPIRY]
    | some (JSValue.num JSNum.posInf) =>
      norm_num [resolveBootstrapExpiry, DEFAULT_BOOTSTRAP_EXPIRY]
    | some (JSValue.num JSNum.negInf) =>
      norm_num [resolveBootstrapExpiry, DEFAULT_BOOTSTRAP_EXPIRY]
    | some (JSValue.str s) => norm_num [resolveBootstrapExpiry, DEFAULT_BOOTSTRAP_EXPIRY]
    | some (JSValue.boolean b) => norm_num [resolveBootstrapExpiry, DEFAULT_BOOTSTRAP_EXPIRY]
    | some JSValue.nullv => norm_num [resolveBootstrapExpiry, DEFAULT_BOOTSTRAP_EXPIRY]
    | some JSValue.objLike => norm_num [resolveBootstrapExpiry, DEFAULT_BOOTSTRAP_EXPIRY]

/-- C10 witness: a concrete fractional threshold 7/2 is floored to 3. -/
theorem resolveBootstrapExpiry_spec_witness :
    resolveBootstrapExpiry (some (JSValue.num (JSNum.finite (mkRat 7 2)))) = 3 := by
  rw [resolveBootstrapExpiry_spec.1 (mkRat 7 2) (by norm_num)]
  decide

/-- C3: `extractInlineToolCalls` is a total function (it never raises);
on the single well-formed block
`<tool_call>{"name":"x","arguments":{"a":1}}</tool_call>` it yields
exactly one tool call named `x` whose argument string parses back to the
object `{a:1}`, with empty remaining text and no warnings; and a
delimited block whose enclosed span is not JSON is dropped with a logged
warning, contributing no tool call while a later well-formed block is
still extracted. -/
theorem extractInlineToolCalls_spec :
    ((extractInlineToolCalls 0
        "<tool_call>\x7b\"name\":\"x\",\"arguments\":\x7b\"a\":1\x7d\x7d</tool_call>").toolCalls.map
        (fun tc => (tc.function.name, Json.parse tc.function.arguments)) =
      [("x", some (Json.obj [("a", Json.num 1)]))] ∧
     (extractInlineToolCalls 0
        "<tool_call>\x7b\"name\":\"x\",\"arguments\":\x7b\"a\":1\x7d\x7d</tool_call>").remainingText
       = "" ∧
     (extractInlineToolCalls 0
        "<tool_call>\x7b\"name\":\"x\",\"arguments\":\x7b\"a\":1\x7d\x7d</tool_call>").warnings
       = []) ∧
    ((extractInlineToolCalls 0
        "<tool_call>not json</tool_call>ok <tool_call>\x7b\"name\":\"y\"\x7d</tool_call>").toolCalls.map
        (fun tc => tc.function.name) = ["y"] ∧
     (extractInlineToolCalls 0
        "<tool_call>not json</tool_call>ok <tool_call>\x7b\"name\":\"y\"\x7d</tool_call>").remainingText
       = "ok" ∧
     (extractInlineToolCalls 0
        "<tool_call>not json</tool_call>ok <tool_call>\x7b\"name\":\"y\"\x7d</tool_call>").warnings.length
       = 1) :=
  ⟨⟨rfl, rfl, rfl⟩, rfl, rfl, rfl⟩

/-- C2: with the unwrap flag set, `unwrapToolCallArgs` replaces an
argument string that JSON-parses to a string value by that inner string,
leaves a non-JSON argument string unchanged without raising, and acts
elementwise on the list; with the flag unset, `buildAssistantMessage`
passes the argument string through untouched, so a non-JSON argument
string degrades to empty structured arguments at the final parse step
instead of failing the call. -/
theorem unwrapToolCallArgs_spec :
    (∀ tc s, Json.parse tc.function.arguments = some (Json.str s) →
      (unwrapOneToolCall tc).function.arguments = s) ∧
    (∀ tc, Json.parse tc.function.arguments = none → unwrapOneToolCall tc = tc) ∧
    (∀ toolCalls,
      unwrapToolCallArgs (some toolCalls) = some (toolCalls.map unwrapOneToolCall)) ∧
    (∀ ds resp mi now c rest tc, resp.choices = c :: rest →
      c.message.content = none → c.message.reasoning_content = none →
      c.message.tool_calls = some [tc] → Json.parse tc.function.arguments = none →
      ∃ msg, buildAssistantMessage resp mi
          { disableStreaming := ds, unwrapToolArgs := false } now = Except.ok msg ∧
        msg.content = [ContentPart.toolCall (if tc.id ≠ "" then tc.id else "compat_call_0")
          tc.function.name (Json.obj [])]) := by
  refine ⟨?_, ?_, fun _ => rfl, ?_⟩
  · intro tc s h
    simp [unwrapOneToolCall, h]
  · intro tc h
    simp [unwrapOneToolCall, h]
  · intro ds resp mi now c rest tc h hc hr ht hparse
    unfold buildAssistantMessage
    rw [h]
    simp only [List.head?_cons, hc, hr, ht]
    refine ⟨_, rfl, ?_⟩
    simp only [extractInlineToolCalls, stripThinkingBlock, hparse]
    norm_num [finalToolCallPart, hparse]
    rfl

/-- C2 witness: the double-encoded argument string `"{\"a\":1}"` (a JSON
string containing a JSON object) unwraps to the inner string, which then
parses to the structured object `{a:1}`; a non-JSON argument string is
left untouched; and with the flag unset a structured tool call with
non-JSON arguments still yields a message whose tool-call part has empty
structured arguments. -/
theorem unwrapToolCallArgs_spec_witness :
    (unwrapOneToolCall
        { id := "t1",
          function := { name := "f", arguments := "\"\x7b\\\"a\\\":1\x7d\"" } }).function.arguments
      = "\x7b\"a\":1\x7d" ∧
    Json.parse "\x7b\"a\":1\x7d" = some (Json.obj [("a", Json.num 1)]) ∧
    unwrapOneToolCall { id := "t2", function := { name := "g", arguments := "not json" } } =
      { id := "t2", function := { name := "g", arguments := "not json" } } ∧
    (∃ msg, buildAssistantMessage
        { choices := [{ message :=
            { tool_calls := some [{ id := "t2", function := { name := "g", arguments := "not json" } }] } }] }
        { api := "a", provider := "p", id := "m" }
        { disableStreaming := false, unwrapToolArgs := false } 0 = Except.ok msg ∧
      msg.content = [ContentPart.toolCall "t2" "g" (Json.obj [])]) := by
  refine ⟨unwrapToolCallArgs_spec.1 _ "\x7b\"a\":1\x7d" rfl, rfl,
    unwrapToolCallArgs_spec.2.1 _ rfl, ?_⟩
  obtain ⟨msg, h1, h2⟩ :=
    unwrapToolCallArgs_spec.2.2.2 false
      { choices := [{ message :=
          { tool_calls := some [{ id := "t2", function := { name := "g", arguments := "not json" } }] } }] }
      { api := "a", provider := "p", id := "m" } 0
      { message :=
          { tool_calls := some [{ id := "t2", function := { name := "g", arguments := "not json" } }] } }
      [] { id := "t2", function := { name := "g", arguments := "not json" } }
      rfl rfl rfl rfl rfl
  refine ⟨msg, h1, ?_⟩
  rw [h2]
  rfl

/-- C6 counterexample: a user message whose extracted text content is
empty is converted with the empty string as its wire `content`, not the
null value — refuting the claim for the user role (the same happens for
the tool role). -/
theorem convert_empty_content_counterexample :
    convertToOpenAIMessages [{ role := "user", content := ContentVal.str "" }] none =
      [{ role := "user", content := some "" }] ∧
    (some "" : Option String) ≠ none := ⟨rfl, by decide⟩

/-- C6 amended: the empty-content-is-null invariant holds exactly for the
assistant role; converted user and tool/toolResult messages always carry
the (possibly empty) extracted text as a string. -/
theorem convert_content_null_amended :
    (∀ i msg, msg.role = "assistant" → extractTextContent msg.content = "" →
      (convertOneMessage i msg).map OpenAIChatMessage.content = some none) ∧
    (∀ i msg, msg.role = "assistant" → extractTextContent msg.content ≠ "" →
      (convertOneMessage i msg).map OpenAIChatMessage.content =
        some (some (extractTextContent msg.content))) ∧
    (∀ i msg, msg.role = "user" →
      (convertOneMessage i msg).map OpenAIChatMessage.content =
        some (some (extractTextContent msg.content))) ∧
    (∀ i msg, msg.role = "tool" ∨ msg.role = "toolResult" →
      (convertOneMessage i msg).map OpenAIChatMessage.content =
        some (some (extractTextContent msg.content))) := by
  refine ⟨?_, ?_, ?_, ?_⟩
  · intro i msg h h2
    simp [convertOneMessage, h, h2]
  · intro i msg h h2
    simp [convertOneMessage, h, h2]
  · intro i msg h
    simp [convertOneMessage, h]
  · intro i msg h
    rcases h with h | h <;> simp [convertOneMessage, h]

/-- C6 amended witness: a concrete empty assistant message converts with
null content; a concrete empty tool message converts with `""`. -/
theorem convert_content_null_amended_witness :
    (convertOneMessage 0 { role := "assistant", content := ContentVal.str "" }).map
      OpenAIChatMessage.content = some none ∧
    (convertOneMessage 0 { role := "tool", content := ContentVal.str "" }).map
      OpenAIChatMessage.content = some (some "") := by
  constructor
  · exact convert_content_null_amended.1 0
      { role := "assistant", content := ContentVal.str "" } rfl rfl
  · exact convert_content_null_amended.2.2.2 0
      { role := "tool", content := ContentVal.str "" } (Or.inl rfl)

theorem userLineCount_cons (line : String) (rest : List String) :
    userLineCount (line :: rest) =
      (if isCountedUserLine line then 1 else 0) + userLineCount rest := by
  by_cases h : isCountedUserLine line
  · simp [userLineCount, List.filter_cons, h]
    omega
  · simp [userLineCount, List.filter_cons, h]

theorem userLineCount_append (l1 l2 : List String) :
    userLineCount (l1 ++ l2) = userLineCount l1 + userLineCount l2 := by
  simp [userLineCount, List.filter_append]

theorem countLoop_eq_min (lines : List String) :
    ∀ count limit, count < limit →
      countLoop lines count limit = min (count + userLineCount lines) limit := by
  induction lines with
  | nil =>
    intro count limit h
    simp [countLoop, userLineCount]
    omega
  | cons line rest ih =>
    intro count limit h
    rw [userLineCount_cons]
    by_cases hb : jsTrim line = ""
    · have hl : isCountedUserLine line = false := by simp [isCountedUserLine, hb]
      simp [countLoop, hb, hl, ih count limit h]
    · cases hp : Json.parse line with
      | none =>
        have hl : isCountedUserLine line = false := by simp [isCountedUserLine, hp]
        simp [countLoop, hb, hp, hl, ih count limit h]
      | some record =>
        by_cases hu : isUserMessageRecord record
        · have hl : isCountedUserLine line = true := by simp [isCountedUserLine, hb, hp, hu]
          by_cases hlim : limit ≤ count + 1
          · simp [countLoop, hb, hp, hu, hl, hlim]
            omega
          · simp [countLoop, hb, hp, hu, hl, hlim, ih (count + 1) limit (by omega)]
            omega
        · have hl : isCountedUserLine line = false := by
            simp [isCountedUserLine, hb, hp, hu]
          simp [countLoop, hb, hp, hu, hl, ih count limit h]

theorem countLoop_skip (line : String) (hline : jsTrim line = "" ∨ Json.parse line = none) :
    ∀ (pre suf : List String) (count limit : Nat),
      countLoop (pre ++ line :: suf) count limit = countLoop (pre ++ suf) count limit := by
  intro pre
  induction pre with
  | nil =>
    intro suf count limit
    rcases hline with hb | hp
    · simp [countLoop, hb]
    · by_cases hb : jsTrim line = ""
      · simp [countLoop, hb]
      · simp [countLoop, hb, hp]
  | cons l pre ih =>
    intro suf count limit
    simp only [List.cons_append, countLoop]
    by_cases hb : jsTrim l = ""
    · simp only [hb, if_true]
      exact ih suf count limit
    · simp only [hb, if_false]
      cases hp : Json.parse l with
      | none => exact ih suf count limit
      | some record =>
        by_cases hu : isUserMessageRecord record
        · simp only [hu, if_true]
          by_cases hlim : limit ≤ count + 1
          · simp [hlim]
          · simp only [hlim, if_false]
            exact ih suf (count + 1) limit
        · simp only [hu, Bool.false_eq_true, if_false]
          exact ih suf count limit

/-- C9 counterexample: with limit 0 and a transcript holding a single
user-message record, `countUserMessagesInSession` returns 1, not the
claimed cap of 0 (the loop increments before comparing, so a limit of 0
is overshot by one). -/
theorem countUserMessagesInSession_counterexample :
    countUserMessagesInSession
        (some "\x7b\"type\":\"message\",\"message\":\x7b\"role\":\"user\"\x7d\x7d") 0 = 1 ∧
      ¬ countUserMessagesInSession
        (some "\x7b\"type\":\"message\",\"message\":\x7b\"role\":\"user\"\x7d\x7d") 0 ≤ 0 := by
  constructor
  · rfl
  · intro hle
    rw [show countUserMessagesInSession
        (some "\x7b\"type\":\"message\",\"message\":\x7b\"role\":\"user\"\x7d\x7d") 0 = 1
      from rfl] at hle
    omega

/-- C9 amended: for every transcript and every positive limit, the count
is the number of user-message records capped at the limit (so once the
limit is reached the remaining lines cannot change the result); blank or
unparseable lines are skipped without affecting the count for any limit;
and a failed file read yields 0. (For limit 0 the source returns 1 on the
first user record rather than 0, per the counterexample.) -/
theorem countUserMessagesInSession_amended :
    (∀ raw limit, 1 ≤ limit →
      countUserMessagesInSession (some raw) limit =
        min (userLineCount (jsSplitNewline raw)) limit) ∧
    (∀ limit, countUserMessagesInSession none limit = 0) ∧
    (∀ line pre suf count limit, jsTrim line = "" ∨ Json.parse line = none →
      countLoop (pre ++ line :: suf) count limit = countLoop (pre ++ suf) count limit) ∧
    (∀ pre suf limit, 1 ≤ limit → limit ≤ userLineCount pre →
      countLoop (pre ++ suf) 0 limit = limit) := by
  refine ⟨?_, fun _ => rfl, ?_, ?_⟩
  · intro raw limit hlim
    rw [show countUserMessagesInSession (some raw) limit =
        countLoop (jsSplitNewline raw) 0 limit from rfl]
    rw [countLoop_eq_min (jsSplitNewline raw) 0 limit (by omega)]
    omega
  · intro line pre suf count limit hline
    exact countLoop_skip line hline pre suf count limit
  · intro pre suf limit hlim hreach
    rw [countLoop_eq_min (pre ++ suf) 0 limit (by omega), userLineCount_append]
    omega

theorem find?_map_set_self (m : List (String × String)) (k v : String)
    (h : m.any (fun f => f.1 = k) = true) :
    (m.map fun f => if f.1 = k then (k, v) else f).find? (fun f => f.1 = k) = some (k, v) := by
  induction m with
  | nil => simp at h
  | cons hd tl ih =>
    by_cases hh : hd.1 = k
    · simp [hh]
    · have h' : tl.any (fun f => f.1 = k) = true := by simpa [List.any_cons, hh] using h
      simp [hh, ih h']

theorem find?_append_set_self (m : List (String × String)) (k v : String)
    (h : m.any (fun f => f.1 = k) = false) :
    (m ++ [(k, v)]).find? (fun f => f.1 = k) = some (k, v) := by
  induction m with
  | nil => simp
  | cons hd tl ih =>
    have hh : ¬ hd.1 = k := by
      intro hcontra
      simp [List.any_cons, hcontra] at h
    have h' : tl.any (fun f => f.1 = k) = false := by
      cases h2 : tl.any (fun f => f.1 = k) with
      | false => rfl
      | true => simp [List.any_cons, h2] at h
    simp [hh, ih h']

theorem find?_map_set_other (m : List (String × String)) (k v k' : String) (h : k' ≠ k) :
    (m.map fun f => if f.1 = k then (k, v) else f).find? (fun f => f.1 = k') =
      m.find? (fun f => f.1 = k') := by
  induction m with
  | nil => rfl
  | cons hd tl ih =>
    by_cases hh : hd.1 = k
    · have hg : (if hd.1 = k then (k, v) else hd) = (k, v) := if_pos hh
      have hne : ¬ ((k, v) : String × String).1 = k' := fun hc => h (hc.symm)
      have hne2 : ¬ hd.1 = k' := by rw [hh]; exact hne
      rw [List.map_cons, hg, List.find?_cons_of_neg _ (by simpa using hne),
        List.find?_cons_of_neg _ (by simpa using hne2)]
      exact ih
    · have hg : (if hd.1 = k then (k, v) else hd) = hd := if_neg hh
      by_cases hh2 : hd.1 = k'
      · rw [List.map_cons, hg, List.find?_cons_of_pos _ (by simpa using hh2),
          List.find?_cons_of_pos _ (by simpa using hh2)]
      · rw [List.map_cons, hg, List.find?_cons_of_neg _ (by simpa using hh2),
          List.find?_cons_of_neg _ (by simpa using hh2)]
        exact ih

theorem jsObjGet_set_self (m : List (String × String)) (k v : String) :
    jsObjGet (jsObjSet m k v) k = some v := by
  unfold jsObjSet jsObjGet
  cases hany : m.any (fun f => f.1 = k) with
  | true => simp [hany, find?_map_set_self m k v hany]
  | false => simp [hany, find?_append_set_self m k v hany]

theorem jsObjGet_set_other (m : List (String × String)) (k v k' : String) (h : k' ≠ k) :
    jsObjGet (jsObjSet m k v) k' = jsObjGet m k' := by
  unfold jsObjSet jsObjGet
  cases hany : m.any (fun f => f.1 = k) with
  | true => simp [hany, find?_map_set_other m k v k' h]
  | false =>
    simp only [hany, Bool.false_eq_true, if_false]
    rw [List.find?_append]
    have hsing : List.find? (fun f => decide (f.1 = k')) [(k, v)] = none := by
      simp
      exact fun hc => h hc.symm
    cases hfind : m.find? (fun f => decide (f.1 = k')) with
    | none => simp [hfind, hsing]
    | some x => simp [hfind]

theorem jsObjSpread_get_absent (extra : List (String × String)) (t : String)
    (h : ∀ kv ∈ extra, kv.1 ≠ t) :
    ∀ base, jsObjGet (jsObjSpread base extra) t = jsObjGet base t := by
  induction extra with
  | nil => intro base; rfl
  | cons kv rest ih =>
    intro base
    have h1 : kv.1 ≠ t := h kv (List.mem_cons_self kv rest)
    have h2 : ∀ kv2 ∈ rest, kv2.1 ≠ t := fun kv2 hm => h kv2 (List.mem_cons_of_mem kv hm)
    show jsObjGet (jsObjSpread (jsObjSet base kv.1 kv.2) rest) t = jsObjGet base t
    rw [ih h2, jsObjGet_set_other base kv.1 kv.2 t (fun hc => h1 hc.symm)]

theorem jsObjSpread_get_mem (extra : List (String × String)) :
    ∀ (k v : String), (extra.map Prod.fst).Nodup → (k, v) ∈ extra →
      ∀ base, jsObjGet (jsObjSpread base extra) k = some v := by
  induction extra with
  | nil =>
    intro k v _ hmem
    simp at hmem
  | cons kv rest ih =>
    intro k v hnd hmem base
    rcases List.mem_cons.mp hmem with heq | hmem'
    · have hk : kv.1 = k := by rw [← heq]
      have hv : kv.2 = v := by rw [← heq]
      have hhead : kv.1 ∉ rest.map Prod.fst := (List.nodup_cons.mp (by simpa using hnd)).1
      have hrest : ∀ kv2 ∈ rest, kv2.1 ≠ k := by
        intro kv2 hm hc
        apply hhead
        rw [hk, ← hc]
        exact List.mem_map_of_mem Prod.fst hm
      show jsObjGet (jsObjSpread (jsObjSet base kv.1 kv.2) rest) k = some v
      rw [jsObjSpread_get_absent rest k hrest, hk, hv]
      exact jsObjGet_set_self base k v
    · have hnd' : (rest.map Prod.fst).Nodup := (List.nodup_cons.mp (by simpa using hnd)).2
      exact ih k v hnd' hmem' (jsObjSet base kv.1 kv.2)

/-- C7 counterexample: a caller-supplied `Content-Type` header replaces
the JSON content type (the spread `...options?.headers` comes after the
`"Content-Type"` literal, so the caller's value wins), refuting the claim
that a caller-supplied header never replaces it. -/
theorem buildHeaders_counterexample :
    jsObjGet (buildHeaders [("Content-Type", "text/plain")] none) "Content-Type" =
      some "text/plain" ∧
    jsObjGet (buildHeaders [("Content-Type", "text/plain")] none) "Content-Type" ≠
      some "application/json" := by
  constructor
  · rfl
  · intro hcontra
    rw [show jsObjGet (buildHeaders [("Content-Type", "text/plain")] none) "Content-Type" =
        some "text/plain" from rfl] at hcontra
    simp at hcontra

/-- C7 amended: the headers start from the JSON content type, so it is
present whenever the caller supplies no `Content-Type` of their own — but
a caller-supplied `Content-Type` does override it; a truthy (non-empty)
API key is attached as a bearer `Authorization` header after the merge
(overriding any caller `Authorization`); every other caller-supplied
header survives the merge. -/
theorem buildHeaders_amended :
    (∀ extra apiKey, (∀ kv ∈ extra, kv.1 ≠ "Content-Type") →
      jsObjGet (buildHeaders extra apiKey) "Content-Type" = some "application/json") ∧
    (∀ extra k, k ≠ "" →
      jsObjGet (buildHeaders extra (some k)) "Authorization" = some ("Bearer " ++ k)) ∧
    (∀ extra apiKey k v, (extra.map Prod.fst).Nodup → (k, v) ∈ extra →
      (k = "Authorization" → apiKey = none ∨ apiKey = some "") →
      jsObjGet (buildHeaders extra apiKey) k = some v) := by
  refine ⟨?_, ?_, ?_⟩
  · intro extra apiKey habsent
    unfold buildHeaders
    have hbase : jsObjGet (jsObjSpread [("Content-Type", "application/json")] extra)
        "Content-Type" = some "application/json" := by
      rw [jsObjSpread_get_absent extra "Content-Type" habsent]
      rfl
    match apiKey with
    | none => exact hbase
    | some key =>
      by_cases hk : key = ""
      · simp only [hk, ne_eq, not_true_eq_false, if_false]
        exact hbase
      · simp only [ne_eq, hk, not_false_eq_true, if_true]
        rw [jsObjGet_set_other _ "Authorization" _ "Content-Type" (by simp)]
        exact hbase
  · intro extra k hk
    unfold buildHeaders
    simp only [ne_eq, hk, not_false_eq_true, if_true]
    exact jsObjGet_set_self _ "Authorization" ("Bearer " ++ k)
  · intro extra apiKey k v hnd hmem hauth
    unfold buildHeaders
    have hbase : jsObjGet (jsObjSpread [("Content-Type", "application/json")] extra) k =
        some v := jsObjSpread_get_mem extra k v hnd hmem _
    match apiKey with
    | none => exact hbase
    | some key =>
      by_cases hk : key = ""
      · simp only [hk, ne_eq, not_true_eq_false, if_false]
        exact hbase
      · simp only [ne_eq, hk, not_false_eq_true, if_true]
        have hkauth : k ≠ "Authorization" := by
          intro hc
          rcases hauth hc with h1 | h1
          · exact Option.noConfusion h1
          · exact hk (Option.some.inj h1)
        rw [jsObjGet_set_other _ "Authorization" _ k hkauth]
        exact hbase

/-- C7 amended witness: with one custom caller header and a non-empty API
key, the built headers carry the JSON content type, the bearer token, and
the custom header. -/
theorem buildHeaders_amended_witness :
    jsObjGet (buildHeaders [("X-Custom", "1")] (some "sek")) "Content-Type" =
      some "application/json" ∧
    jsObjGet (buildHeaders [("X-Custom", "1")] (some "sek")) "Authorization" =
      some "Bearer sek" ∧
    jsObjGet (buildHeaders [("X-Custom", "1")] (some "sek")) "X-Custom" = some "1" := by
  refine ⟨?_, ?_, ?_⟩
  · exact buildHeaders_amended.1 [("X-Custom", "1")] (some "sek")
      (by intro kv hm; simp at hm; rw [hm]; decide)
  · exact buildHeaders_amended.2.1 [("X-Custom", "1")] "sek" (by decide)
  · exact buildHeaders_amended.2.2 [("X-Custom", "1")] (some "sek") "X-Custom" "1"
      (by simp) (by simp) (fun hc => by simp at hc)

/-- C5: a provider response with zero choices makes
`buildAssistantMessage` throw (never a default empty message); every
transport outcome produces exactly one event and always ends the stream;
and every raised exception (network failure, non-OK HTTP status, JSON
parse failure, missing choices) yields one terminal error event whose
envelope has empty content, stop reason `error`, the error message, and
zero-filled usage. -/
theorem providerCompat_error_handling :
    (∀ resp mi compat now, resp.choices = [] →
      buildAssistantMessage resp mi compat now =
        Except.error "OpenAI-compat API returned no choices") ∧
    (∀ outcome mi compat now,
      (runProviderCompat outcome mi compat now).2 = true ∧
      (runProviderCompat outcome mi compat now).1.length = 1) ∧
    (∀ outcome mi compat now e, compatAttempt outcome mi compat now = Except.error e →
      (runProviderCompat outcome mi compat now).1 =
        [StreamEvent.errorEvt StopReason.error (errorEnvelope e mi now)]) ∧
    (∀ e mi now,
      (errorEnvelope e mi now).content = [] ∧
      (errorEnvelope e mi now).stopReason = StopReason.error ∧
      (errorEnvelope e mi now).errorMessage = some e ∧
      (errorEnvelope e mi now).usage = zeroUsage) ∧
    (∀ status body mi compat now,
      compatAttempt (FetchOutcome.notOk status body) mi compat now =
        Except.error
          ("OpenAI-compat API error " ++ toString status ++ ": " ++
            body.getD "unknown error")) := by
  refine ⟨?_, ?_, ?_, fun e mi now => ⟨rfl, rfl, rfl, rfl⟩, fun _ _ _ _ _ => rfl⟩
  · intro resp mi compat now h
    unfold buildAssistantMessage
    rw [h]
    rfl
  · intro outcome mi compat now
    cases h : compatAttempt outcome mi compat now with
    | ok ev => simp [runProviderCompat, h]
    | error e => simp [runProviderCompat, h]
  · intro outcome mi compat now e h
    simp [runProviderCompat, h]

/-- C5 witness: a response with empty `choices` raises; a 500 status with
an unreadable body produces exactly one ended error event carrying the
placeholder-bodied message and a zero-filled empty envelope; a parsed
response without choices takes the same error path. -/
theorem providerCompat_error_handling_witness :
    buildAssistantMessage { choices := [] } { api := "a", provider := "p", id := "m" }
        { disableStreaming := true, unwrapToolArgs := false } 3 =
      Except.error "OpenAI-compat API returned no choices" ∧
    (runProviderCompat (FetchOutcome.notOk 500 none)
        { api := "a", provider := "p", id := "m" }
        { disableStreaming := true, unwrapToolArgs := false } 3).2 = true ∧
    (runProviderCompat (FetchOutcome.notOk 500 none)
        { api := "a", provider := "p", id := "m" }
        { disableStreaming := true, unwrapToolArgs := false } 3).1 =
      [StreamEvent.errorEvt StopReason.error
        (errorEnvelope "OpenAI-compat API error 500: unknown error"
          { api := "a", provider := "p", id := "m" } 3)] ∧
    (runProviderCompat (FetchOutcome.okJson { choices := [] })
        { api := "a", provider := "p", id := "m" }
        { disableStreaming := true, unwrapToolArgs := false } 3).1 =
      [StreamEvent.errorEvt StopReason.error
        (errorEnvelope "OpenAI-compat API returned no choices"
          { api := "a", provider := "p", id := "m" } 3)] := by
  refine ⟨?_, ?_, ?_, ?_⟩
  · exact providerCompat_error_handling.1 { choices := [] }
      { api := "a", provider := "p", id := "m" }
      { disableStreaming := true, unwrapToolArgs := false } 3 rfl
  · exact (providerCompat_error_handling.2.1 (FetchOutcome.notOk 500 none)
      { api := "a", provider := "p", id := "m" }
      { disableStreaming := true, unwrapToolArgs := false } 3).1
  · exact providerCompat_error_handling.2.2.1 (FetchOutcome.notOk 500 none)
      { api := "a", provider := "p", id := "m" }
      { disableStreaming := true, unwrapToolArgs := false } 3
      "OpenAI-compat API error 500: unknown error" rfl
  · exact providerCompat_error_handling.2.2.1 (FetchOutcome.okJson { choices := [] })
      { api := "a", provider := "p", id := "m" }
      { disableStreaming := true, unwrapToolArgs := false } 3
      "OpenAI-compat API returned no choices" rfl

theorem unwrapOneToolCall_name (tc : OpenAIToolCall) :
    (unwrapOneToolCall tc).function.name = tc.function.name := rfl

theorem names_map_unwrap (l : List OpenAIToolCall) :
    (l.map unwrapOneToolCall).map (fun tc => tc.function.name) =
      l.map (fun tc => tc.function.name) := by
  induction l with
  | nil => rfl
  | cons hd tl ih => simp only [List.map_cons, ih, unwrapOneToolCall_name]

theorem pick_finalToolCallPart (i : Nat) (tc : OpenAIToolCall) :
    (fun p => match p with | ContentPart.toolCall _ name _ => some name | _ => none)
        (finalToolCallPart i tc) = some tc.function.name := rfl

theorem filterMap_pick_finalParts (l : List OpenAIToolCall) : ∀ n : Nat,
    ((List.enumFrom n l).map (fun x => finalToolCallPart x.1 x.2)).filterMap
        (fun p => match p with | ContentPart.toolCall _ name _ => some name | _ => none) =
      l.map (fun tc => tc.function.name) := by
  induction l with
  | nil => intro n; rfl
  | cons hd tl ih =>
    intro n
    simp only [List.enumFrom, List.map_cons, List.filterMap_cons, pick_finalToolCallPart,
      ih (n + 1)]

theorem stopReason_of_list (L : List OpenAIToolCall) :
    (if decide (L.length > 0) = true then StopReason.toolUse else StopReason.stop) =
      (if L = [] then StopReason.stop else StopReason.toolUse) := by
  cases L with
  | nil => simp
  | cons hd tl => simp

theorem stopReason_of_list_map (L : List OpenAIToolCall) :
    (if decide ((L.map unwrapOneToolCall).length > 0) = true then StopReason.toolUse
      else StopReason.stop) =
      (if L = [] then StopReason.stop else StopReason.toolUse) := by
  cases L with
  | nil => simp
  | cons hd tl => simp

theorem filterMap_pick_textPart (t : String) (l : List ContentPart) :
    ((if t ≠ "" then [ContentPart.text t] else []) ++ l).filterMap
        (fun p => match p with | ContentPart.toolCall _ name _ => some name | _ => none) =
      l.filterMap
        (fun p => match p with | ContentPart.toolCall _ name _ => some name | _ => none) := by
  split
  · simp [List.filterMap_cons]
  · simp

/-- C1: for every provider response with at least one choice,
`buildAssistantMessage` succeeds and the tool-call parts of the produced
message are, in order, the provider's structured `tool_calls`, then the
inline calls extracted from the text content, then the inline calls
extracted from `reasoning_content` (witnessed by their name sequence,
which the optional argument-unwrap pass preserves); the stop reason is
`toolUse` exactly when that concatenation is non-empty, else `stop`. -/
theorem buildAssistantMessage_toolCall_concat :
    ∀ (resp : OpenAIChatResponse) (mi : ModelInfo) (compat : ProviderCompatConfig)
      (now : Nat) (c : Choice) (rest : List Choice), resp.choices = c :: rest →
    ∃ msg, buildAssistantMessage resp mi compat now = Except.ok msg ∧
      assistantToolCallNames msg =
        (structuredToolCallsOf c ++ inlineTextToolCallsOf c ++
          inlineReasoningToolCallsOf c).map (fun tc => tc.function.name) ∧
      msg.stopReason =
        (if structuredToolCallsOf c ++ inlineTextToolCallsOf c ++
            inlineReasoningToolCallsOf c = [] then StopReason.stop
         else StopReason.toolUse) := by
  intro resp mi compat now c rest h
  simp only [structuredToolCallsOf, inlineTextToolCallsOf, inlineReasoningToolCallsOf]
  unfold buildAssistantMessage
  rw [h]
  simp only [List.head?_cons]
  refine ⟨_, rfl, ?_, ?_⟩
  · simp only [assistantToolCallNames]
    rw [filterMap_pick_textPart]
    cases hflag : compat.unwrapToolArgs with
    | false =>
      simp only [hflag, Bool.false_eq_true, if_false, List.enum]
      rw [filterMap_pick_finalParts]
    | true =>
      simp only [hflag, if_true, unwrapToolCallArgs, Option.getD_some, List.enum]
      rw [filterMap_pick_finalParts, names_map_unwrap]
  · cases hflag : compat.unwrapToolArgs with
    | false =>
      simp only [hflag, Bool.false_eq_true, if_false]
      exact stopReason_of_list _
    | true =>
      simp only [hflag, if_true, unwrapToolCallArgs, Option.getD_some]
      exact stopReason_of_list_map _

/-- C1 witness: a concrete response carrying one structured call `st`,
one inline call `x` in the text, and one inline call `rz` in
`reasoning_content` produces exactly the name sequence
`[st, x, rz]` and stop reason `toolUse`. -/
theorem buildAssistantMessage_toolCall_concat_witness :
    ∃ msg, buildAssistantMessage
        { choices := [{ message :=
            { content := some "hi <tool_call>\x7b\"name\":\"x\",\"arguments\":\x7b\"a\":1\x7d\x7d</tool_call>",
              tool_calls := some [{ id := "s1", function := { name := "st", arguments := "\x7b\x7d" } }],
              reasoning_content := some "<tool_call>\x7b\"name\":\"rz\"\x7d</tool_call>" } }] }
        { api := "a", provider := "p", id := "m" }
        { disableStreaming := false, unwrapToolArgs := false } 0 = Except.ok msg ∧
      assistantToolCallNames msg = ["st", "x", "rz"] ∧
      msg.stopReason = StopReason.toolUse := by
  obtain ⟨msg, h1, h2, h3⟩ :=
    buildAssistantMessage_toolCall_concat
      { choices := [{ message :=
          { content := some "hi <tool_call>\x7b\"name\":\"x\",\"arguments\":\x7b\"a\":1\x7d\x7d</tool_call>",
            tool_calls := some [{ id := "s1", function := { name := "st", arguments := "\x7b\x7d" } }],
            reasoning_content := some "<tool_call>\x7b\"name\":\"rz\"\x7d</tool_call>" } }] }
      { api := "a", provider := "p", id := "m" }
      { disableStreaming := false, unwrapToolArgs := false } 0
      { message :=
          { content := some "hi <tool_call>\x7b\"name\":\"x\",\"arguments\":\x7b\"a\":1\x7d\x7d</tool_call>",
            tool_calls := some [{ id := "s1", function := { name := "st", arguments := "\x7b\x7d" } }],
            reasoning_content := some "<tool_call>\x7b\"name\":\"rz\"\x7d</tool_call>" } }
      [] rfl
  refine ⟨msg, h1, ?_, ?_⟩
  · rw [h2]
    rfl
  · rw [h3]
    rfl

theorem getLast?_filter_range (p : Nat → Bool) (n i0 : Nat) (h0 : p i0 = true)
    (hlt : i0 < n) (hmax : ∀ i, p i = true → i ≤ i0) :
    ((List.range n).filter p).getLast? = some i0 := by
  have hn : n = (i0 + 1) + (n - (i0 + 1)) := by omega
  rw [hn, List.range_add, List.filter_append]
  have h2 : (((List.range (n - (i0 + 1))).map fun x => (i0 + 1) + x).filter p) = [] := by
    apply List.filter_eq_nil_iff.mpr
    intro a ha
    rcases List.mem_map.mp ha with ⟨x, _, rfl⟩
    intro hpa
    have := hmax _ hpa
    omega
  rw [h2, List.append_nil, List.range_succ, List.filter_append]
  have h4 : List.filter p [i0] = [i0] := by simp [h0]
  rw [h4]
  exact List.getLast?_concat _

theorem occursAtB_false_all (pat cs : List Char) (hne : pat ≠ [])
    (h : (occurrenceList pat cs).isEmpty = true) : ∀ j, occursAtB pat cs j = false := by
  intro j
  by_cases hj : j < cs.length + 1
  · cases hb : occursAtB pat cs j with
    | false => rfl
    | true =>
      have hmem : j ∈ occurrenceList pat cs :=
        List.mem_filter.mpr ⟨List.mem_range.mpr hj, hb⟩
      rw [List.isEmpty_iff.mp h] at hmem
      simp at hmem
  · have hdrop : cs.drop j = [] := List.drop_eq_nil_of_le (by omega)
    unfold occursAtB
    rw [hdrop]
    cases hpat : pat with
    | nil => exact absurd hpat hne
    | cons c rest => rfl

theorem lastIndexOf_concat_think (pre post : String)
    (hpost : containsSub "</think>" post = false) :
    lastIndexOfSub "</think>" (pre ++ "</think>" ++ post) = some pre.data.length := by
  have hpostEmpty : (occurrenceList "</think>".data post.data).isEmpty = true := by
    unfold containsSub at hpost
    cases hocc : occurrenceList "</think>".data post.data with
    | nil => rfl
    | cons a l => rw [hocc] at hpost; simp at hpost
  have hpostAll : ∀ j, occursAtB "</think>".data post.data j = false :=
    occursAtB_false_all _ _ (by decide) hpostEmpty
  have hdata : (pre ++ "</think>" ++ post).data =
      pre.data ++ ("</think>".data ++ post.data) := by
    rw [String.data_append, String.data_append, List.append_assoc]
  unfold lastIndexOfSub occurrenceList
  rw [hdata]
  apply getLast?_filter_range
  · -- the marker occurs at pre.data.length
    unfold occursAtB
    rw [List.drop_left]
    exact List.isPrefixOf_iff_prefix.mpr (List.prefix_append _ _)
  · -- pre.data.length is inside the scanned range
    simp [List.length_append]
    omega
  · -- no occurrence after pre.data.length
    intro i hi
    by_contra hgt
    have hgt' : pre.data.length < i := Nat.not_le.mp hgt
    rcases Nat.lt_or_ge i (pre.data.length + 8) with hcase | hcase
    · -- i straddles the marker: the char at the match start is not '<'
      have hj : i = pre.data.length + (i - pre.data.length) := by omega
      unfold occursAtB at hi
      rw [hj, List.drop_append] at hi
      have hk1 : 1 ≤ i - pre.data.length := by omega
      have hk7 : i - pre.data.length ≤ 7 := by omega
      set k := i - pre.data.length with hkdef
      have hdropk : ("</think>".data ++ post.data).drop k =
          "</think>".data.drop k ++ post.data :=
        List.drop_append_of_le_length (by rw [show "</think>".data.length = 8 from rfl]; omega)
      rw [hdropk] at hi
      interval_cases k <;> simp [List.isPrefixOf] at hi
    · -- i lies at or past the end of the marker: an occurrence in post
      have hassoc : pre.data ++ ("</think>".data ++ post.data) =
          (pre.data ++ "</think>".data) ++ post.data := (List.append_assoc _ _ _).symm
      have hlen : (pre.data ++ "</think>".data).length = pre.data.length + 8 := by
        simp [List.length_append]
      have hj : i = (pre.data ++ "</think>".data).length + (i - (pre.data.length + 8)) := by
        rw [hlen]; omega
      unfold occursAtB at hi
      rw [hassoc, hj, List.drop_append] at hi
      have : occursAtB "</think>".data post.data (i - (pre.data.length + 8)) = true := hi
      rw [hpostAll _] at this
      exact Bool.noConfusion this

/-- C4: `stripThinkingBlock` leaves text without the `</think>` marker
untouched, and for any text of the form `pre ++ "</think>" ++ post` whose
tail `post` holds no further marker, it returns the trimmed `post` —
regardless of whether any opening tag appeared in `pre`. -/
theorem stripThinkingBlock_spec :
    (∀ t, containsSub "</think>" t = false → stripThinkingBlock t = t) ∧
    (∀ pre post, containsSub "</think>" post = false →
      stripThinkingBlock (pre ++ "</think>" ++ post) = jsTrim post) := by
  constructor
  · intro t h
    unfold stripThinkingBlock
    by_cases ht : t = ""
    · simp [ht]
    · simp only [ht, if_false]
      have hnone : lastIndexOfSub "</think>" t = none := by
        unfold lastIndexOfSub
        unfold containsSub at h
        cases hocc : occurrenceList "</think>".data t.data with
        | nil => rfl
        | cons a l => rw [hocc] at h; simp at h
      rw [hnone]
  · intro pre post hpost
    unfold stripThinkingBlock
    have hne : ¬ (pre ++ "</think>" ++ post) = "" := by
      intro hc
      have hd := congrArg String.data hc
      rw [String.data_append, String.data_append] at hd
      simp at hd
    simp only [hne, if_false]
    rw [lastIndexOf_concat_think pre post hpost]
    show jsTrim (jsDrop (pre ++ "</think>" ++ post)
      (pre.data.length + "</think>".length)) = jsTrim post
    have hdrop : jsDrop (pre ++ "</think>" ++ post)
        (pre.data.length + "</think>".length) = post := by
      unfold jsDrop
      rw [String.data_append, String.data_append, List.append_assoc]
      show String.mk ((pre.data ++ ("</think>".data ++ post.data)).drop
        (pre.data.length + 8)) = post
      rw [List.drop_append, List.drop_left' (show ("</think>".data).length = 8 from rfl)]
    rw [hdrop]

/-- C4 witness: text with a hallucinated opening tag but a closing
`</think>` strips to the trimmed remainder, and text without the marker
is returned untouched. -/
theorem stripThinkingBlock_spec_witness :
    stripThinkingBlock ("<tool_call>abc" ++ "</think>" ++ "  rem  ") = "rem" ∧
    stripThinkingBlock "no marker here" = "no marker here" := by
  constructor
  · rw [stripThinkingBlock_spec.2 "<tool_call>abc" "  rem  " rfl]
    rfl
  · exact stripThinkingBlock_spec.1 "no marker here" rfl

/-- C9 amended witness: a transcript of 12 user-message lines counted
with limit 10 returns exactly 10. -/
theorem countUserMessagesInSession_amended_witness :
    countUserMessagesInSession
      (some (String.intercalate "\n"
        (List.replicate 12 "\x7b\"type\":\"message\",\"message\":\x7b\"role\":\"user\"\x7d\x7d")))
      10 = 10 := by
  rw [countUserMessagesInSession_amended.1 _ 10 (by norm_num)]
  rfl

end OpenClaw
